import Mathlib

/-!
Shallow embedding of the group-management core of the repository
(management/server/group.go): the mutating group operations of the
DefaultAccountManager (SaveGroups, DeleteGroups, GroupAddPeer,
GroupDeletePeer), their linkage-validation helpers and the peer-impact
predicate areGroupChangesAffectPeers, running against a model of the
Entity Store collaborator.

The store is modelled as the persisted state visible to one transaction:
entity lists filtered by account identifier, plus explicit boolean fault
flags that make a given store read or write fail (the Go code receives
such failures as non-nil errors from the Store interface).  Entity types
carry exactly the fields group.go reads.
-/

namespace NB

/-- Issuer of a group: the `api`, `integration` and `jwt` values of
`nbgroup.Group.Issued`. -/
inductive GroupIssued
  | api
  | integration
  | jwt
deriving DecidableEq, Repr

/-- A group entity: identifier, owning account, name, issuer and the
member peer identifiers, as read by group.go. -/
structure Group where
  ID : String
  AccountID : String
  Name : String
  Issued : GroupIssued
  Peers : List String
deriving DecidableEq, Repr

/-- A policy rule: the source and destination group-identifier lists read
by isGroupLinkedToPolicy, plus the enabled flag from the data model. -/
structure Rule where
  Enabled : Bool
  Sources : List String
  Destinations : List String
deriving DecidableEq, Repr

/-- A policy: owning account, name, enabled flag and its rules. -/
structure Policy where
  AccountID : String
  Name : String
  Enabled : Bool
  Rules : List Rule
deriving DecidableEq, Repr

/-- A route: owning account, network identifier and the distribution
(`Groups`) and advertising (`PeerGroups`) group-identifier lists. -/
structure Route where
  AccountID : String
  NetID : String
  Groups : List String
  PeerGroups : List String
deriving DecidableEq, Repr

/-- A DNS name-server group: owning account, name and the group
identifiers it distributes to. -/
structure NameServerGroup where
  AccountID : String
  Name : String
  Groups : List String
deriving DecidableEq, Repr

/-- A setup key: owning account, name and its auto-group list. -/
structure SetupKey where
  AccountID : String
  Name : String
  AutoGroups : List String
deriving DecidableEq, Repr

/-- Role of a user.  The spec's permission source resolves a user to
role admin or regular. -/
inductive UserRole
  | admin
  | regular
deriving DecidableEq, Repr

/-- A user: identifier, owning account, role, service-user flag and its
auto-group list. -/
structure User where
  Id : String
  AccountID : String
  Role : UserRole
  IsServiceUser : Bool
  AutoGroups : List String
deriving DecidableEq, Repr

/-- Modelled from the spec: the user type's IsRegularUser method is not
among the extracted sources; per the spec's permission source, a regular
user is one that is neither an admin nor a service user. -/
def User.IsRegularUser (u : User) : Bool :=
  u.Role != UserRole.admin && !u.IsServiceUser

/-- Modelled from the spec: Group.IsGroupAll is not among the extracted
sources; the spec's distinguished group is the one named "All". -/
def Group.IsGroupAll (g : Group) : Bool :=
  g.Name == "All"

/-- Modelled from the spec: Group.AddPeer is not among the extracted
sources.  Per the spec, membership is an ordered set without duplicates
and adding an already-present peer is a no-op; the boolean reports
whether membership changed. -/
def Group.AddPeer (g : Group) (peerID : String) : Group × Bool :=
  if g.Peers.contains peerID then (g, false)
  else ({ g with Peers := g.Peers ++ [peerID] }, true)

/-- Modelled from the spec: Group.RemovePeer is not among the extracted
sources.  Removing an absent peer is a no-op; the boolean reports whether
membership changed. -/
def Group.RemovePeer (g : Group) (peerID : String) : Group × Bool :=
  if g.Peers.contains peerID then ({ g with Peers := g.Peers.erase peerID }, true)
  else (g, false)

/-- The account's DNS settings: the disabled-management group list. -/
structure DNSSettings where
  DisabledManagementGroups : List String
deriving DecidableEq, Repr

/-- Extra account settings: the integrated-validator group list. -/
structure ExtraSettings where
  IntegratedValidatorGroups : List String
deriving DecidableEq, Repr

/-- Account settings; `Extra` is optional (a nil pointer in the code). -/
structure Settings where
  Extra : Option ExtraSettings
deriving DecidableEq, Repr

/-- A peer: identifier, owning account, address and fully qualified
domain name (the two fields the group event metadata reads). -/
structure Peer where
  ID : String
  AccountID : String
  IP : String
  FQDN : String
deriving DecidableEq, Repr

/-- A leaf error of the abstract error taxonomy of the spec plus the
GroupLinkError type declared in group.go. -/
inductive LeafErr
  | notFound (msg : String)
  | invalidArgument (msg : String)
  | alreadyExists (msg : String)
  | permissionDenied (msg : String)
  | userNotPartOfAccount
  | groupLinked (resource name : String)
  | storeFailure (msg : String)
deriving DecidableEq, Repr

/-- The error value surfaced by an operation: either a single error or
the `errors.Join` of the per-identifier errors of DeleteGroups. -/
inductive Err
  | leaf (e : LeafErr)
  | joined (es : List LeafErr)
deriving DecidableEq, Repr

/-- An audit event, as queued by group.go for the activity sink: kind,
initiator, target, account and the metadata fields group.go supplies. -/
inductive Event
  | groupCreated (userID groupID accountID groupName : String)
  | groupAddedToPeer (userID peerID accountID groupName groupID peerIP peerFQDN : String)
  | groupRemovedFromPeer (userID peerID accountID groupName groupID peerIP peerFQDN : String)
  | groupDeleted (userID groupID accountID groupName : String)
deriving DecidableEq, Repr

/-- The persisted store state a transaction sees.  Entity lists model the
store tables (reads filter them by account); `dnsSettings` and `settings`
model the settings rows of the account under consideration.
`networkSerial` is that account's serial.  `nextID` seeds the xid
generator.  The `*Fails` flags inject store errors: when set, the
corresponding store call returns an error, exactly where the Go Store
interface can. -/
structure StoreState where
  users : List User
  groups : List Group
  peers : List Peer
  policies : List Policy
  routes : List Route
  nameServerGroups : List NameServerGroup
  setupKeys : List SetupKey
  dnsSettings : DNSSettings
  settings : Settings
  networkSerial : Nat
  nextID : Nat
  routesReadFails : Bool
  policiesReadFails : Bool
  nameServerGroupsReadFails : Bool
  setupKeysReadFails : Bool
  usersReadFails : Bool
  dnsSettingsReadFails : Bool
  settingsReadFails : Bool
  peersByIDsReadFails : Bool
  groupByNameReadFails : Bool
  incrementSerialFails : Bool
  saveGroupWriteFails : Bool
  saveGroupsWriteFails : Bool
  deleteGroupsWriteFails : Bool
deriving DecidableEq, Repr

/-- Result of one mutating operation: the committed state (unchanged when
the transaction aborted or a pre-transaction check failed), the returned
error, the audit events handed to the activity sink after commit, and
whether peer-map propagation was triggered for the account. -/
structure OpResult where
  state : StoreState
  err : Option Err
  events : List Event
  propagated : Bool
deriving DecidableEq, Repr

/-! ### Entity Store reads (collaborator contract, spec section 6) -/

/-- Store `GetUserByUserID`: look the user up by identifier. -/
def getUserByUserID (s : StoreState) (userID : String) : Except LeafErr User :=
  match s.users.find? (fun u => u.Id == userID) with
  | some u => .ok u
  | none => .error (.notFound "user not found")

/-- Store `GetGroupByID`: look the group up by account and identifier. -/
def getGroupByID (s : StoreState) (accountID groupID : String) : Except LeafErr Group :=
  match s.groups.find? (fun g => g.AccountID == accountID && g.ID == groupID) with
  | some g => .ok g
  | none => .error (.notFound "group not found")

/-- Store `GetGroupByName`: filter the account's groups by name and
return the one with the most peers; not found when none matches. -/
def getGroupByName (s : StoreState) (accountID name : String) : Except LeafErr Group :=
  if s.groupByNameReadFails then .error (.storeFailure "group by name read failed")
  else
    match s.groups.filter (fun g => g.AccountID == accountID && g.Name == name) with
    | [] => .error (.notFound "group not found")
    | g :: gs => .ok (gs.foldl (fun best h => if h.Peers.length > best.Peers.length then h else best) g)

/-- Store `GetPeerByID`: look the peer up by account and identifier. -/
def getPeerByID (s : StoreState) (accountID peerID : String) : Except LeafErr Peer :=
  match s.peers.find? (fun p => p.AccountID == accountID && p.ID == peerID) with
  | some p => .ok p
  | none => .error (.notFound "peer not found")

/-- Store `GetPeersByIDs`: the account's peers among the given
identifiers (missing identifiers are simply absent from the result). -/
def getPeersByIDs (s : StoreState) (accountID : String) (peerIDs : List String) :
    Except LeafErr (List Peer) :=
  if s.peersByIDsReadFails then .error (.storeFailure "peers read failed")
  else .ok (peerIDs.filterMap (fun pid => s.peers.find? (fun p => p.AccountID == accountID && p.ID == pid)))

/-- Store `GetAccountRoutes`. -/
def getAccountRoutes (s : StoreState) (accountID : String) : Except LeafErr (List Route) :=
  if s.routesReadFails then .error (.storeFailure "routes read failed")
  else .ok (s.routes.filter (fun r => r.AccountID == accountID))

/-- Store `GetAccountPolicies`. -/
def getAccountPolicies (s : StoreState) (accountID : String) : Except LeafErr (List Policy) :=
  if s.policiesReadFails then .error (.storeFailure "policies read failed")
  else .ok (s.policies.filter (fun p => p.AccountID == accountID))

/-- Store `GetAccountNameServerGroups`. -/
def getAccountNameServerGroups (s : StoreState) (accountID : String) :
    Except LeafErr (List NameServerGroup) :=
  if s.nameServerGroupsReadFails then .error (.storeFailure "name server groups read failed")
  else .ok (s.nameServerGroups.filter (fun n => n.AccountID == accountID))

/-- Store `GetAccountSetupKeys`. -/
def getAccountSetupKeys (s : StoreState) (accountID : String) : Except LeafErr (List SetupKey) :=
  if s.setupKeysReadFails then .error (.storeFailure "setup keys read failed")
  else .ok (s.setupKeys.filter (fun k => k.AccountID == accountID))

/-- Store `GetAccountUsers`. -/
def getAccountUsers (s : StoreState) (accountID : String) : Except LeafErr (List User) :=
  if s.usersReadFails then .error (.storeFailure "users read failed")
  else .ok (s.users.filter (fun u => u.AccountID == accountID))

/-- Store `GetAccountDNSSettings` of the account under consideration. -/
def getAccountDNSSettings (s : StoreState) (_accountID : String) : Except LeafErr DNSSettings :=
  if s.dnsSettingsReadFails then .error (.storeFailure "dns settings read failed")
  else .ok s.dnsSettings

/-- Store `GetAccountSettings` of the account under consideration. -/
def getAccountSettings (s : StoreState) (_accountID : String) : Except LeafErr Settings :=
  if s.settingsReadFails then .error (.storeFailure "settings read failed")
  else .ok s.settings

/-! ### Entity Store writes -/

/-- Store `IncrementNetworkSerial` for the account under consideration. -/
def incrementNetworkSerial (s : StoreState) : Except LeafErr StoreState :=
  if s.incrementSerialFails then .error (.storeFailure "increment network serial failed")
  else .ok { s with networkSerial := s.networkSerial + 1 }

/-- Insert the group or replace the stored group with the same account
and identifier (the store's upsert on the primary key). -/
def upsertGroup (groups : List Group) (g : Group) : List Group :=
  if groups.any (fun h => h.AccountID == g.AccountID && h.ID == g.ID) then
    groups.map (fun h => if h.AccountID == g.AccountID && h.ID == g.ID then g else h)
  else groups ++ [g]

/-- Store `SaveGroup` (single group). -/
def storeSaveGroup (s : StoreState) (g : Group) : Except LeafErr StoreState :=
  if s.saveGroupWriteFails then .error (.storeFailure "save group failed")
  else .ok { s with groups := upsertGroup s.groups g }

/-- Store `SaveGroups` (several groups at once). -/
def storeSaveGroups (s : StoreState) (gs : List Group) : Except LeafErr StoreState :=
  if s.saveGroupsWriteFails then .error (.storeFailure "save groups failed")
  else .ok { s with groups := gs.foldl upsertGroup s.groups }

/-- Store `DeleteGroups`: remove the account's groups with the given
identifiers. -/
def storeDeleteGroups (s : StoreState) (accountID : String) (groupIDs : List String) :
    Except LeafErr StoreState :=
  if s.deleteGroupsWriteFails then .error (.storeFailure "delete groups failed")
  else .ok { s with groups := s.groups.filter (fun g => !(g.AccountID == accountID && groupIDs.contains g.ID)) }

/-! ### Linkage helpers of group.go -/

/-- The `(isLinked, linked)` return convention of the isGroupLinkedTo*
helpers: the first match together with `true`, or `(false, nil)`. -/
def foundPair {α : Type} (o : Option α) : Bool × Option α :=
  match o with
  | some x => (true, some x)
  | none => (false, none)

/-- `isGroupLinkedToRoute`: first route whose `Groups` or `PeerGroups`
contains the group; a failing store read is swallowed (logged) and the
group reported unlinked. -/
def isGroupLinkedToRoute (s : StoreState) (accountID groupID : String) : Bool × Option Route :=
  match getAccountRoutes s accountID with
  | .error _ => (false, none)
  | .ok routes =>
    foundPair (routes.find? (fun r => r.Groups.contains groupID || r.PeerGroups.contains groupID))

/-- `isGroupLinkedToPolicy`: first policy one of whose rules lists the
group among its sources or destinations; a failing store read is
swallowed and the group reported unlinked. -/
def isGroupLinkedToPolicy (s : StoreState) (accountID groupID : String) : Bool × Option Policy :=
  match getAccountPolicies s accountID with
  | .error _ => (false, none)
  | .ok policies =>
    foundPair (policies.find? (fun p =>
      p.Rules.any (fun rl => rl.Sources.contains groupID || rl.Destinations.contains groupID)))

/-- `isGroupLinkedToDns`: first name-server group distributing to the
group; a failing store read is swallowed and the group reported
unlinked. -/
def isGroupLinkedToDns (s : StoreState) (accountID groupID : String) :
    Bool × Option NameServerGroup :=
  match getAccountNameServerGroups s accountID with
  | .error _ => (false, none)
  | .ok nsGroups => foundPair (nsGroups.find? (fun n => n.Groups.contains groupID))

/-- `isGroupLinkedToSetupKey`: first setup key whose auto-group list
contains the group; a failing store read is swallowed and the group
reported unlinked. -/
def isGroupLinkedToSetupKey (s : StoreState) (accountID groupID : String) :
    Bool × Option SetupKey :=
  match getAccountSetupKeys s accountID with
  | .error _ => (false, none)
  | .ok keys => foundPair (keys.find? (fun k => k.AutoGroups.contains groupID))

/-- `isGroupLinkedToUser`: first user whose auto-group list contains the
group; a failing store read is swallowed and the group reported
unlinked. -/
def isGroupLinkedToUser (s : StoreState) (accountID groupID : String) : Bool × Option User :=
  match getAccountUsers s accountID with
  | .error _ => (false, none)
  | .ok users => foundPair (users.find? (fun u => u.AutoGroups.contains groupID))

/-- The per-group body of the loop in `areGroupChangesAffectPeers`: the
group is in the disabled-DNS-management list, or linked to a name-server
group, a policy, or a route. -/
def groupChangeAffectsPeers (s : StoreState) (accountID : String) (dns : DNSSettings)
    (groupID : String) : Bool :=
  dns.DisabledManagementGroups.contains groupID
    || (isGroupLinkedToDns s accountID groupID).1
    || (isGroupLinkedToPolicy s accountID groupID).1
    || (isGroupLinkedToRoute s accountID groupID).1

/-- `areGroupChangesAffectPeers`: false for an empty identifier list;
otherwise reads the DNS settings (propagating that error) and reports
whether any listed group is DNS-disabled or linked to a name-server
group, policy, or route. -/
def areGroupChangesAffectPeers (s : StoreState) (accountID : String) (groupIDs : List String) :
    Except LeafErr Bool :=
  if groupIDs.isEmpty then .ok false
  else
    match getAccountDNSSettings s accountID with
    | .error e => .error e
    | .ok dns => .ok (groupIDs.any (groupChangeAffectsPeers s accountID dns))

/-! ### Group mutation operations of group.go -/

/-- `difference`: the elements of `a` that are not in `b`. -/
def difference (a b : List String) : List String :=
  a.filter (fun x => !b.contains x)

/-- `validateNewGroup`: a non-API group must carry an identifier; an
API group without one must not duplicate an existing API-issued name and
receives a fresh xid; every referenced peer must exist in the account.
Returns the (possibly identifier-assigned) group together with the state
whose xid seed advanced. -/
def validateNewGroup (s : StoreState) (accountID : String) (newGroup : Group) :
    Except LeafErr (Group × StoreState) :=
  if newGroup.ID == "" && !(newGroup.Issued == GroupIssued.api) then
    .error (.invalidArgument "group without ID set")
  else
    match
      ((if newGroup.ID == "" && newGroup.Issued == GroupIssued.api then
        match getGroupByName s accountID newGroup.Name with
        | .error (.notFound _) =>
          .ok ({ newGroup with ID := "xid-" ++ toString s.nextID },
               { s with nextID := s.nextID + 1 })
        | .error e => .error e
        | .ok _ => .error (.alreadyExists "group with this name already exists")
      else .ok (newGroup, s)) : Except LeafErr (Group × StoreState)) with
    | .error e => .error e
    | .ok (g, s') =>
      match g.Peers.find? (fun pid => !(getPeerByID s' accountID pid).toBool) with
      | some _ => .error (.invalidArgument "peer not found")
      | none => .ok (g, s')

/-- `prepareGroupEvents`: diff the new membership against the stored
group (a missing stored group means creation and queues a GroupCreated
event); a failing peer read drops all the events of this group; each
added or removed peer found in the store queues one event carrying its
address and domain name. -/
def prepareGroupEvents (s : StoreState) (accountID userID : String) (newGroup : Group) :
    List Event :=
  let diffs :=
    match getGroupByID s accountID newGroup.ID with
    | .ok oldGroup =>
      (difference newGroup.Peers oldGroup.Peers, difference oldGroup.Peers newGroup.Peers,
       ([] : List Event))
    | .error _ =>
      (newGroup.Peers, [], [Event.groupCreated userID newGroup.ID accountID newGroup.Name])
  let addedPeers := diffs.1
  let removedPeers := diffs.2.1
  let createdEvents := diffs.2.2
  match getPeersByIDs s accountID (addedPeers ++ removedPeers) with
  | .error _ => []
  | .ok peersFound =>
    createdEvents
      ++ addedPeers.filterMap (fun pid =>
          match peersFound.find? (fun p => p.ID == pid) with
          | some p =>
            some (Event.groupAddedToPeer userID p.ID accountID newGroup.Name newGroup.ID p.IP p.FQDN)
          | none => none)
      ++ removedPeers.filterMap (fun pid =>
          match peersFound.find? (fun p => p.ID == pid) with
          | some p =>
            some (Event.groupRemovedFromPeer userID p.ID accountID newGroup.Name newGroup.ID p.IP p.FQDN)
          | none => none)

/-- The per-group loop of the SaveGroups transaction: validate each
group, stamp its owning account, collect the groups to save, their
identifiers, and the queued events; the first validation error aborts. -/
def saveGroupsLoop (accountID userID : String) (st : StoreState) :
    List Group → Except LeafErr (StoreState × List Group × List String × List Event)
  | [] => .ok (st, [], [], [])
  | g :: gs =>
    match validateNewGroup st accountID g with
    | .error e => .error e
    | .ok (g', st') =>
      let g'' := { g' with AccountID := accountID }
      let evs := prepareGroupEvents st' accountID userID g''
      match saveGroupsLoop accountID userID st' gs with
      | .error e => .error e
      | .ok (st'', toSave, gids, evs') => .ok (st'', g'' :: toSave, g''.ID :: gids, evs ++ evs')

/-- The SaveGroups transaction body: validate and collect the groups,
run the impact predicate over their identifiers, increment the network
serial, and write the groups; any error aborts (rollback). -/
def saveGroupsTxn (s : StoreState) (accountID userID : String) (groups : List Group) :
    Except LeafErr (StoreState × List Event × Bool) :=
  match saveGroupsLoop accountID userID s groups with
  | .error e => .error e
  | .ok (st, toSave, gids, evs) =>
    match areGroupChangesAffectPeers st accountID gids with
    | .error e => .error e
    | .ok upd =>
      match incrementNetworkSerial st with
      | .error e => .error e
      | .ok st2 =>
        match storeSaveGroups st2 toSave with
        | .error e => .error e
        | .ok st3 => .ok (st3, evs, upd)

/-- `SaveGroups`: permission gate (user exists, belongs to the account,
is not a regular user), then the transaction; on commit the queued
events are stored and, when the impact predicate held, peer propagation
is triggered.  A failed transaction leaves the state unchanged and
produces no side effects. -/
def SaveGroups (s : StoreState) (accountID userID : String) (groups : List Group) : OpResult :=
  match getUserByUserID s userID with
  | .error e => ⟨s, some (.leaf e), [], false⟩
  | .ok user =>
    if !(user.AccountID == accountID) then ⟨s, some (.leaf .userNotPartOfAccount), [], false⟩
    else if user.IsRegularUser then
      ⟨s, some (.leaf (.permissionDenied "admin permission required")), [], false⟩
    else
      match saveGroupsTxn s accountID userID groups with
      | .error e => ⟨s, some (.leaf e), [], false⟩
      | .ok (s', evs, upd) => ⟨s', none, evs, upd⟩

/-- First component of an `isGroupLinkedTo*` option, for building the
GroupLinkError message. -/
def routeNetID (o : Option Route) : String :=
  match o with
  | some r => r.NetID
  | none => ""

/-- Name of the linked name-server group, for the GroupLinkError. -/
def nsGroupName (o : Option NameServerGroup) : String :=
  match o with
  | some n => n.Name
  | none => ""

/-- Name of the linked policy, for the GroupLinkError. -/
def policyName (o : Option Policy) : String :=
  match o with
  | some p => p.Name
  | none => ""

/-- Name of the linked setup key, for the GroupLinkError. -/
def setupKeyName (o : Option SetupKey) : String :=
  match o with
  | some k => k.Name
  | none => ""

/-- Identifier of the linked user, for the GroupLinkError. -/
def userIdOf (o : Option User) : String :=
  match o with
  | some u => u.Id
  | none => ""

/-- `checkGroupLinkedToSettings`: the group must appear neither in the
disabled-DNS-management list nor in the integrated-validator list;
settings read errors propagate. -/
def checkGroupLinkedToSettings (s : StoreState) (group : Group) : Except LeafErr Unit :=
  match getAccountDNSSettings s group.AccountID with
  | .error e => .error e
  | .ok dns =>
    if dns.DisabledManagementGroups.contains group.ID then
      .error (.groupLinked "disabled DNS management groups" group.Name)
    else
      match getAccountSettings s group.AccountID with
      | .error e => .error e
      | .ok settings =>
        match settings.Extra with
        | some extra =>
          if extra.IntegratedValidatorGroups.contains group.ID then
            .error (.groupLinked "integrated validator" group.Name)
          else .ok ()
        | none => .ok ()

/-- The integration-issuer gate of `validateDeleteGroup`: deleting an
integration-issued group requires the executing user to be a service
user with admin role. -/
def integrationDeleteGate (s : StoreState) (group : Group) (userID : String) :
    Option LeafErr :=
  if group.Issued == GroupIssued.integration then
    match getUserByUserID s userID with
    | .error e => some e
    | .ok executingUser =>
      if !(executingUser.Role == UserRole.admin) || !executingUser.IsServiceUser then
        some (.permissionDenied "only service users with admin power can delete integration group")
      else none
  else none

/-- `validateDeleteGroup`: integration-issuer gate, the ALL group is
never deletable, then the linkage checks in source order (route, DNS
name-server groups, policy, setup key, user, settings lists); success
means the group may be deleted. -/
def validateDeleteGroup (s : StoreState) (group : Group) (userID : String) :
    Except LeafErr Unit :=
  match integrationDeleteGate s group userID with
  | some e => .error e
  | none =>
    if group.IsGroupAll then .error (.invalidArgument "deleting group ALL is not allowed")
    else if (isGroupLinkedToRoute s group.AccountID group.ID).1 then
      .error (.groupLinked "route" (routeNetID (isGroupLinkedToRoute s group.AccountID group.ID).2))
    else if (isGroupLinkedToDns s group.AccountID group.ID).1 then
      .error (.groupLinked "name server groups" (nsGroupName (isGroupLinkedToDns s group.AccountID group.ID).2))
    else if (isGroupLinkedToPolicy s group.AccountID group.ID).1 then
      .error (.groupLinked "policy" (policyName (isGroupLinkedToPolicy s group.AccountID group.ID).2))
    else if (isGroupLinkedToSetupKey s group.AccountID group.ID).1 then
      .error (.groupLinked "setup key" (setupKeyName (isGroupLinkedToSetupKey s group.AccountID group.ID).2))
    else if (isGroupLinkedToUser s group.AccountID group.ID).1 then
      .error (.groupLinked "user" (userIdOf (isGroupLinkedToUser s group.AccountID group.ID).2))
    else checkGroupLinkedToSettings s group

/-- Outcome of one identifier in the DeleteGroups loop: the recorded
error, if the lookup or the deletability validation failed. -/
def idErr (s : StoreState) (accountID userID groupID : String) : Option LeafErr :=
  match getGroupByID s accountID groupID with
  | .error e => some e
  | .ok g =>
    match validateDeleteGroup s g userID with
    | .error e => some e
    | .ok _ => none

/-- The group an identifier resolves to when it passes the DeleteGroups
loop, none when it is skipped. -/
def idGroup (s : StoreState) (accountID userID groupID : String) : Option Group :=
  match getGroupByID s accountID groupID with
  | .error _ => none
  | .ok g =>
    match validateDeleteGroup s g userID with
    | .error _ => none
    | .ok _ => some g

/-- The per-identifier loop of the DeleteGroups transaction: a failing
identifier records its error and is skipped; a passing one is collected
for deletion.  Returns the collected errors, the identifiers to delete
and the corresponding groups, each in iteration order. -/
def deleteGroupsLoop (s : StoreState) (accountID userID : String) :
    List String → List LeafErr × List String × List Group
  | [] => ([], [], [])
  | groupID :: rest =>
    let r := deleteGroupsLoop s accountID userID rest
    match getGroupByID s accountID groupID with
    | .error e => (e :: r.1, r.2.1, r.2.2)
    | .ok g =>
      match validateDeleteGroup s g userID with
      | .error e => (e :: r.1, r.2.1, r.2.2)
      | .ok _ => (r.1, groupID :: r.2.1, g :: r.2.2)

/-- The DeleteGroups transaction body: run the per-identifier loop,
increment the network serial, delete the collected identifiers; a store
write error aborts (rollback) while per-identifier errors do not. -/
def deleteGroupsTxn (s : StoreState) (accountID userID : String) (groupIDs : List String) :
    Except LeafErr (StoreState × List LeafErr × List Group) :=
  let r := deleteGroupsLoop s accountID userID groupIDs
  match incrementNetworkSerial s with
  | .error e => .error e
  | .ok s1 =>
    match storeDeleteGroups s1 accountID r.2.1 with
    | .error e => .error e
    | .ok s2 => .ok (s2, r.1, r.2.2)

/-- `DeleteGroups`: permission gate, then the transaction; on commit one
GroupDeleted event per deleted group is stored and the joined
per-identifier errors are returned (nil when every identifier passed).
DeleteGroups never triggers peer propagation. -/
def DeleteGroups (s : StoreState) (accountID userID : String) (groupIDs : List String) :
    OpResult :=
  match getUserByUserID s userID with
  | .error e => ⟨s, some (.leaf e), [], false⟩
  | .ok user =>
    if !(user.AccountID == accountID) then ⟨s, some (.leaf .userNotPartOfAccount), [], false⟩
    else if user.IsRegularUser then
      ⟨s, some (.leaf (.permissionDenied "admin permission required")), [], false⟩
    else
      match deleteGroupsTxn s accountID userID groupIDs with
      | .error e => ⟨s, some (.leaf e), [], false⟩
      | .ok (s', errs, deleted) =>
        ⟨s',
         (match errs with
          | [] => none
          | es => some (.joined es)),
         deleted.map (fun g => Event.groupDeleted userID g.ID accountID g.Name),
         false⟩

/-- The GroupAddPeer transaction body: fetch the group; an already
present peer is a no-op commit; otherwise run the impact predicate,
increment the network serial and save the updated group. -/
def groupAddPeerTxn (s : StoreState) (accountID groupID peerID : String) :
    Except LeafErr (StoreState × Bool) :=
  match getGroupByID s accountID groupID with
  | .error e => .error e
  | .ok group =>
    let r := group.AddPeer peerID
    if !r.2 then .ok (s, false)
    else
      match areGroupChangesAffectPeers s accountID [groupID] with
      | .error e => .error e
      | .ok upd =>
        match incrementNetworkSerial s with
        | .error e => .error e
        | .ok s1 =>
          match storeSaveGroup s1 r.1 with
          | .error e => .error e
          | .ok s2 => .ok (s2, upd)

/-- `GroupAddPeer`: the transaction, then peer propagation when the
impact predicate held.  Stores no audit events. -/
def GroupAddPeer (s : StoreState) (accountID groupID peerID : String) : OpResult :=
  match groupAddPeerTxn s accountID groupID peerID with
  | .error e => ⟨s, some (.leaf e), [], false⟩
  | .ok (s', upd) => ⟨s', none, [], upd⟩

/-- The GroupDeletePeer transaction body: fetch the group; an absent
peer is a no-op commit; otherwise run the impact predicate, increment
the network serial and save the updated group. -/
def groupDeletePeerTxn (s : StoreState) (accountID groupID peerID : String) :
    Except LeafErr (StoreState × Bool) :=
  match getGroupByID s accountID groupID with
  | .error e => .error e
  | .ok group =>
    let r := group.RemovePeer peerID
    if !r.2 then .ok (s, false)
    else
      match areGroupChangesAffectPeers s accountID [groupID] with
      | .error e => .error e
      | .ok upd =>
        match incrementNetworkSerial s with
        | .error e => .error e
        | .ok s1 =>
          match storeSaveGroup s1 r.1 with
          | .error e => .error e
          | .ok s2 => .ok (s2, upd)

/-- `GroupDeletePeer`: the transaction, then peer propagation when the
impact predicate held.  Stores no audit events. -/
def GroupDeletePeer (s : StoreState) (accountID groupID peerID : String) : OpResult :=
  match groupDeletePeerTxn s accountID groupID peerID with
  | .error e => ⟨s, some (.leaf e), [], false⟩
  | .ok (s', upd) => ⟨s', none, [], upd⟩

/-- Whether a returned error value is (or joins) a GroupLinkError. -/
def errHasGroupLinked (o : Option Err) : Bool :=
  match o with
  | some (.leaf (.groupLinked _ _)) => true
  | some (.joined es) =>
    es.any (fun e =>
      match e with
      | .groupLinked _ _ => true
      | _ => false)
  | _ => false

/-! ### Helper lemmas -/

theorem foundPair_fst {α : Type} (o : Option α) : (foundPair o).1 = o.isSome := by
  cases o <;> rfl

theorem contains_eq_true_iff {l : List String} {x : String} : l.contains x = true ↔ x ∈ l := by
  simp [List.contains]

theorem isGroupLinkedToRoute_fst_iff {s : StoreState} {a gid : String}
    (hflag : s.routesReadFails = false) :
    (isGroupLinkedToRoute s a gid).1 = true ↔
      ∃ r ∈ s.routes, r.AccountID = a ∧ (gid ∈ r.Groups ∨ gid ∈ r.PeerGroups) := by
  unfold isGroupLinkedToRoute getAccountRoutes
  rw [hflag]
  simp only [Bool.false_eq_true, if_false]
  rw [foundPair_fst, List.find?_isSome]
  constructor
  · rintro ⟨r, hr, hpred⟩
    rw [List.mem_filter] at hr
    refine ⟨r, hr.1, by simpa using hr.2, ?_⟩
    simpa [List.contains] using hpred
  · rintro ⟨r, hr, hacc, hmem⟩
    refine ⟨r, List.mem_filter.mpr ⟨hr, by simp [hacc]⟩, ?_⟩
    simpa [List.contains] using hmem

theorem isGroupLinkedToPolicy_fst_iff {s : StoreState} {a gid : String}
    (hflag : s.policiesReadFails = false) :
    (isGroupLinkedToPolicy s a gid).1 = true ↔
      ∃ p ∈ s.policies, p.AccountID = a ∧
        ∃ rl ∈ p.Rules, gid ∈ rl.Sources ∨ gid ∈ rl.Destinations := by
  unfold isGroupLinkedToPolicy getAccountPolicies
  rw [hflag]
  simp only [Bool.false_eq_true, if_false]
  rw [foundPair_fst, List.find?_isSome]
  constructor
  · rintro ⟨p, hp, hpred⟩
    rw [List.mem_filter] at hp
    refine ⟨p, hp.1, by simpa using hp.2, ?_⟩
    rw [List.any_eq_true] at hpred
    obtain ⟨rl, hrl, hc⟩ := hpred
    exact ⟨rl, hrl, by simpa [List.contains] using hc⟩
  · rintro ⟨p, hp, hacc, rl, hrl, hmem⟩
    refine ⟨p, List.mem_filter.mpr ⟨hp, by simp [hacc]⟩, ?_⟩
    rw [List.any_eq_true]
    exact ⟨rl, hrl, by simpa [List.contains] using hmem⟩

theorem isGroupLinkedToDns_fst_iff {s : StoreState} {a gid : String}
    (hflag : s.nameServerGroupsReadFails = false) :
    (isGroupLinkedToDns s a gid).1 = true ↔
      ∃ n ∈ s.nameServerGroups, n.AccountID = a ∧ gid ∈ n.Groups := by
  unfold isGroupLinkedToDns getAccountNameServerGroups
  rw [hflag]
  simp only [Bool.false_eq_true, if_false]
  rw [foundPair_fst, List.find?_isSome]
  constructor
  · rintro ⟨n, hn, hpred⟩
    rw [List.mem_filter] at hn
    exact ⟨n, hn.1, by simpa using hn.2, by simpa [List.contains] using hpred⟩
  · rintro ⟨n, hn, hacc, hmem⟩
    exact ⟨n, List.mem_filter.mpr ⟨hn, by simp [hacc]⟩, by simpa [List.contains] using hmem⟩

theorem isGroupLinkedToSetupKey_fst_iff {s : StoreState} {a gid : String}
    (hflag : s.setupKeysReadFails = false) :
    (isGroupLinkedToSetupKey s a gid).1 = true ↔
      ∃ k ∈ s.setupKeys, k.AccountID = a ∧ gid ∈ k.AutoGroups := by
  unfold isGroupLinkedToSetupKey getAccountSetupKeys
  rw [hflag]
  simp only [Bool.false_eq_true, if_false]
  rw [foundPair_fst, List.find?_isSome]
  constructor
  · rintro ⟨k, hk, hpred⟩
    rw [List.mem_filter] at hk
    exact ⟨k, hk.1, by simpa using hk.2, by simpa [List.contains] using hpred⟩
  · rintro ⟨k, hk, hacc, hmem⟩
    exact ⟨k, List.mem_filter.mpr ⟨hk, by simp [hacc]⟩, by simpa [List.contains] using hmem⟩

theorem isGroupLinkedToUser_fst_iff {s : StoreState} {a gid : String}
    (hflag : s.usersReadFails = false) :
    (isGroupLinkedToUser s a gid).1 = true ↔
      ∃ u ∈ s.users, u.AccountID = a ∧ gid ∈ u.AutoGroups := by
  unfold isGroupLinkedToUser getAccountUsers
  rw [hflag]
  simp only [Bool.false_eq_true, if_false]
  rw [foundPair_fst, List.find?_isSome]
  constructor
  · rintro ⟨u, hu, hpred⟩
    rw [List.mem_filter] at hu
    exact ⟨u, hu.1, by simpa using hu.2, by simpa [List.contains] using hpred⟩
  · rintro ⟨u, hu, hacc, hmem⟩
    exact ⟨u, List.mem_filter.mpr ⟨hu, by simp [hacc]⟩, by simpa [List.contains] using hmem⟩

/-- Replacing every element a predicate selects keeps the replacement
findable: if some element satisfies `p` and `p g'` holds, then searching
the replaced list finds `g'`. -/
theorem find?_map_replace (l : List Group) (p : Group → Bool) (g' : Group)
    (hp : p g' = true) (h : (l.find? p).isSome = true) :
    (l.map (fun h => if p h then g' else h)).find? p = some g' := by
  induction l with
  | nil => simp [List.find?] at h
  | cons a t ih =>
    by_cases ha : p a = true
    · simp only [List.map_cons, ha, if_true, List.find?_cons, hp]
    · have ha' : p a = false := Bool.not_eq_true _ |>.mp ha
      rw [List.find?_cons_of_neg _ (by simp [ha'])] at h
      simp only [List.map_cons, ha', Bool.false_eq_true, if_false]
      rw [List.find?_cons_of_neg _ (by simp [ha'])]
      exact ih h

/-- Upserting a group with the same account and identifier as a found
group makes the lookup return the upserted group. -/
theorem upsertGroup_find? (l : List Group) (a gid : String) (g g' : Group)
    (hfind : l.find? (fun h => h.AccountID == a && h.ID == gid) = some g)
    (hacc : g'.AccountID = g.AccountID) (hid : g'.ID = g.ID) :
    (upsertGroup l g').find? (fun h => h.AccountID == a && h.ID == gid) = some g' := by
  have hmem := List.mem_of_find?_eq_some hfind
  have hpg := List.find?_some hfind
  simp only [Bool.and_eq_true, beq_iff_eq] at hpg
  have hpred : ∀ h : Group,
      (h.AccountID == g'.AccountID && h.ID == g'.ID) = (h.AccountID == a && h.ID == gid) := by
    intro h
    rw [hacc, hid, hpg.1, hpg.2]
  unfold upsertGroup
  simp only [hpred]
  have hg_pred : (g.AccountID == a && g.ID == gid) = true := by
    simp [hpg.1, hpg.2]
  have hany : (l.any fun h => h.AccountID == a && h.ID == gid) = true :=
    List.any_eq_true.mpr ⟨g, hmem, hg_pred⟩
  rw [if_pos hany]
  refine find?_map_replace l _ g' ?_ (by rw [hfind]; rfl)
  simp only [Bool.and_eq_true, beq_iff_eq]
  exact ⟨hacc.trans hpg.1, hid.trans hpg.2⟩

/-- On a one-element list the impact predicate reduces to the per-group
check, provided the DNS-settings read succeeds. -/
theorem impact_single {s : StoreState} (a gid : String)
    (hdns : s.dnsSettingsReadFails = false) :
    areGroupChangesAffectPeers s a [gid] = .ok (groupChangeAffectsPeers s a s.dnsSettings gid) := by
  simp [areGroupChangesAffectPeers, getAccountDNSSettings, hdns]

/-- `validateNewGroup` only ever advances the xid seed of the
transaction state: the returned state equals the input state up to
`nextID`. -/
theorem validateNewGroup_state {s : StoreState} {accountID : String} {g g' : Group}
    {s' : StoreState} (h : validateNewGroup s accountID g = .ok (g', s')) :
    s' = { s with nextID := s'.nextID } := by
  unfold validateNewGroup at h
  repeat' split at h
  any_goals solve
    | cases h
    | (cases h <;> rfl)
  cases h
  rename_i heq1 heq2
  repeat' split at heq1
  any_goals solve
    | cases heq1
    | (cases heq1 <;> rfl)


/-- The SaveGroups loop only ever advances the xid seed of the
transaction state. -/
theorem saveGroupsLoop_state {accountID userID : String} {s st : StoreState}
    {gs toSave : List Group} {gids : List String} {evs : List Event}
    (h : saveGroupsLoop accountID userID s gs = .ok (st, toSave, gids, evs)) :
    st = { s with nextID := st.nextID } := by
  induction gs generalizing s toSave gids evs with
  | nil =>
    unfold saveGroupsLoop at h
    cases h
    rfl
  | cons g rest ih =>
    unfold saveGroupsLoop at h
    cases hv : validateNewGroup s accountID g with
    | error e => rw [hv] at h; cases h
    | ok p =>
      rw [hv] at h
      obtain ⟨g1, s1⟩ := p
      cases hl : saveGroupsLoop accountID userID s1 rest with
      | error e => simp only [hl] at h; cases h
      | ok q =>
        obtain ⟨st2, ⟨toSave2, gids2, evs2⟩⟩ := q
        simp only [hl] at h
        cases h
        have h1 := validateNewGroup_state hv
        have h2 := ih hl
        rw [h2, h1]


/-- Control-flow inversion of `validateDeleteGroup`: a group that passes
deletability validation is unlinked from routes, name-server groups and
policies, its DNS settings read succeeded, and it is not in the
disabled-DNS-management list (nor linked to setup keys or users). -/
theorem validateDeleteGroup_ok_extract {s : StoreState} {g : Group} {u : String}
    (h : validateDeleteGroup s g u = .ok ()) :
    (isGroupLinkedToRoute s g.AccountID g.ID).1 = false ∧
    (isGroupLinkedToDns s g.AccountID g.ID).1 = false ∧
    (isGroupLinkedToPolicy s g.AccountID g.ID).1 = false ∧
    (isGroupLinkedToSetupKey s g.AccountID g.ID).1 = false ∧
    (isGroupLinkedToUser s g.AccountID g.ID).1 = false ∧
    s.dnsSettingsReadFails = false ∧
    g.ID ∉ s.dnsSettings.DisabledManagementGroups := by
  unfold validateDeleteGroup at h
  cases hgate : integrationDeleteGate s g u with
  | some e => rw [hgate] at h; cases h
  | none =>
    rw [hgate] at h
    by_cases hall : g.IsGroupAll
    · simp [hall] at h
    · simp only [hall, if_false] at h
      by_cases h1 : (isGroupLinkedToRoute s g.AccountID g.ID).1
      · simp [h1] at h
      · simp only [h1, if_false] at h
        by_cases h2 : (isGroupLinkedToDns s g.AccountID g.ID).1
        · simp [h2] at h
        · simp only [h2, if_false] at h
          by_cases h3 : (isGroupLinkedToPolicy s g.AccountID g.ID).1
          · simp [h3] at h
          · simp only [h3, if_false] at h
            by_cases h4 : (isGroupLinkedToSetupKey s g.AccountID g.ID).1
            · simp [h4] at h
            · simp only [h4, if_false] at h
              by_cases h5 : (isGroupLinkedToUser s g.AccountID g.ID).1
              · simp [h5] at h
              · simp only [h5, if_false] at h
                unfold checkGroupLinkedToSettings getAccountDNSSettings at h
                by_cases h6 : s.dnsSettingsReadFails
                · simp [h6] at h
                · simp only [h6, Bool.false_eq_true, if_false] at h
                  by_cases h7 : g.ID ∈ s.dnsSettings.DisabledManagementGroups
                  · simp [h7] at h
                  · exact ⟨Bool.not_eq_true _ |>.mp h1, Bool.not_eq_true _ |>.mp h2,
                      Bool.not_eq_true _ |>.mp h3, Bool.not_eq_true _ |>.mp h4,
                      Bool.not_eq_true _ |>.mp h5, Bool.not_eq_true _ |>.mp h6, h7⟩

/-- The integration-issuer gate passes when the group is not
integration-issued, or the (found) executing user is an admin service
user. -/
theorem integrationDeleteGate_none {s : StoreState} {g : Group} {userID : String} {u : User}
    (hu : getUserByUserID s userID = .ok u)
    (hint : g.Issued = GroupIssued.integration → u.Role = UserRole.admin ∧ u.IsServiceUser = true) :
    integrationDeleteGate s g userID = none := by
  unfold integrationDeleteGate
  by_cases hiss : g.Issued = GroupIssued.integration
  · obtain ⟨hr, hs⟩ := hint hiss
    simp [hiss, hu, hr, hs]
  · simp [hiss]

/-- A group found by `getGroupByID` is in the store's group list. -/
theorem getGroupByID_mem {s : StoreState} {a gid : String} {g : Group}
    (hg : getGroupByID s a gid = .ok g) : g ∈ s.groups := by
  unfold getGroupByID at hg
  cases hf : s.groups.find? (fun h => h.AccountID == a && h.ID == gid) with
  | none => rw [hf] at hg; cases hg
  | some g0 =>
    rw [hf] at hg
    have hg0 : g0 = g := by cases hg; rfl
    exact hg0 ▸ List.mem_of_find?_eq_some hf

/-- The DeleteGroups loop characterized per identifier: the collected
errors are the failing identifiers' errors in order, the identifiers to
delete are exactly those whose lookup and validation succeed, and the
deleted groups are their resolved groups. -/
theorem deleteGroupsLoop_eq (s : StoreState) (a u : String) (ids : List String) :
    deleteGroupsLoop s a u ids =
      (ids.filterMap (idErr s a u), ids.filter (fun id => (idErr s a u id).isNone),
       ids.filterMap (idGroup s a u)) := by
  induction ids with
  | nil => rfl
  | cons id rest ih =>
    cases hf : getGroupByID s a id with
    | error e =>
      have he : idErr s a u id = some e := by simp [idErr, hf]
      have hgr : idGroup s a u id = none := by simp [idGroup, hf]
      simp [deleteGroupsLoop, ih, hf, he, hgr]
    | ok g =>
      cases hv : validateDeleteGroup s g u with
      | error e =>
        have he : idErr s a u id = some e := by simp [idErr, hf, hv]
        have hgr : idGroup s a u id = none := by simp [idGroup, hf, hv]
        simp [deleteGroupsLoop, ih, hf, hv, he, hgr]
      | ok _ =>
        have he : idErr s a u id = none := by simp [idErr, hf, hv]
        have hgr : idGroup s a u id = some g := by simp [idGroup, hf, hv]
        simp [deleteGroupsLoop, ih, hf, hv, he, hgr]


/-! ### Concrete fixtures for witnesses and counterexamples -/

/-- A store state with no entities, a clean store, and serial 7. -/
def cleanState : StoreState where
  users := []
  groups := []
  peers := []
  policies := []
  routes := []
  nameServerGroups := []
  setupKeys := []
  dnsSettings := { DisabledManagementGroups := [] }
  settings := { Extra := none }
  networkSerial := 7
  nextID := 0
  routesReadFails := false
  policiesReadFails := false
  nameServerGroupsReadFails := false
  setupKeysReadFails := false
  usersReadFails := false
  dnsSettingsReadFails := false
  settingsReadFails := false
  peersByIDsReadFails := false
  groupByNameReadFails := false
  incrementSerialFails := false
  saveGroupWriteFails := false
  saveGroupsWriteFails := false
  deleteGroupsWriteFails := false

/-- An admin (non-service) user of account `acc`. -/
def adminUser : User :=
  { Id := "admin", AccountID := "acc", Role := UserRole.admin, IsServiceUser := false,
    AutoGroups := [] }

/-- A regular user of account `acc`. -/
def regularUser : User :=
  { Id := "reggie", AccountID := "acc", Role := UserRole.regular, IsServiceUser := false,
    AutoGroups := [] }

/-- The distinguished ALL group of account `acc`. -/
def gAll : Group :=
  { ID := "gAll", AccountID := "acc", Name := "All", Issued := GroupIssued.api,
    Peers := ["p1"] }

/-- A group of account `acc` that nothing references. -/
def gMisc : Group :=
  { ID := "gMisc", AccountID := "acc", Name := "misc", Issued := GroupIssued.api,
    Peers := [] }

/-- A group of account `acc` referenced by the enabled policy. -/
def gEng : Group :=
  { ID := "gEng", AccountID := "acc", Name := "eng", Issued := GroupIssued.api,
    Peers := ["p1"] }

/-- A peer of account `acc`. -/
def peer1 : Peer :=
  { ID := "p1", AccountID := "acc", IP := "100.64.0.1", FQDN := "p1.netbird" }

/-- Another peer of account `acc`. -/
def peer2 : Peer :=
  { ID := "p2", AccountID := "acc", IP := "100.64.0.2", FQDN := "p2.netbird" }

/-- An enabled policy of account `acc` with one enabled rule from `gEng`
to `gEng`. -/
def engPolicy : Policy :=
  { AccountID := "acc", Name := "engpolicy", Enabled := true,
    Rules := [{ Enabled := true, Sources := ["gEng"], Destinations := ["gEng"] }] }

/-- The base fixture: account `acc` with an admin, the ALL group, the
unlinked group `gMisc`, the policy-linked group `gEng`, two peers and
one enabled policy over `gEng`. -/
def baseState : StoreState :=
  { cleanState with users := [adminUser], groups := [gAll, gMisc, gEng],
                    peers := [peer1, peer2], policies := [engPolicy] }

/-- The base fixture with the regular user as its only user. -/
def regState : StoreState :=
  { baseState with users := [regularUser] }

/-- An enabled policy whose rule references the ALL group. -/
def allPolicy : Policy :=
  { AccountID := "acc", Name := "allpolicy", Enabled := true,
    Rules := [{ Enabled := true, Sources := ["gAll"], Destinations := ["gAll"] }] }

/-- The base fixture with the ALL group referenced by a policy. -/
def allLinkedState : StoreState :=
  { baseState with policies := [allPolicy] }

/-- The base fixture with every entity-list store read failing. -/
def readFailState : StoreState :=
  { baseState with routesReadFails := true, policiesReadFails := true,
                   nameServerGroupsReadFails := true, setupKeysReadFails := true,
                   usersReadFails := true }

/-- The base fixture with the serial-increment store write failing. -/
def incFailState : StoreState :=
  { baseState with incrementSerialFails := true }

/-! ### Claim theorems -/

/-- Counterexample to claim C1 as stated: renaming the unlinked group
`gMisc` has a false impact predicate, yet the committed SaveGroups call
increments the network serial from 7 to 8 (while, correctly, not
propagating) — the serial bump is not conditioned on impact. -/
theorem c1_counterexample :
    areGroupChangesAffectPeers baseState "acc" ["gMisc"] = .ok false
  ∧ (SaveGroups baseState "acc" "admin" [{ gMisc with Name := "misc2" }]).err = none
  ∧ (SaveGroups baseState "acc" "admin" [{ gMisc with Name := "misc2" }]).propagated = false
  ∧ baseState.networkSerial = 7
  ∧ (SaveGroups baseState "acc" "admin" [{ gMisc with Name := "misc2" }]).state.networkSerial
      = 8 :=
  ⟨rfl, rfl, rfl, rfl, rfl⟩

/-- Claim C1 (amended): every committed mutating group transaction
increments the network serial exactly once, unconditionally — SaveGroups
and DeleteGroups always (DeleteGroups even when nothing was deleted, and
with no propagation ever), GroupAddPeer whenever there is an actual
membership change — and the impact predicate gates only the post-commit
propagation, never the serial bump; a membership no-op leaves the serial
untouched. -/
theorem c1_serial_bumped_unconditionally (s : StoreState) (accountID userID gid pid : String)
    (groups : List Group) (ids : List String) (u : User) (g : Group)
    (hu : getUserByUserID s userID = .ok u)
    (huacc : u.AccountID = accountID)
    (hreg : u.IsRegularUser = false)
    (hinc : s.incrementSerialFails = false)
    (hdel : s.deleteGroupsWriteFails = false)
    (hdns : s.dnsSettingsReadFails = false)
    (hsg : s.saveGroupWriteFails = false)
    (hg : getGroupByID s accountID gid = .ok g) :
    ((SaveGroups s accountID userID groups).err = none →
        (SaveGroups s accountID userID groups).state.networkSerial = s.networkSerial + 1
      ∧ ∃ st toSave gids evs,
          saveGroupsLoop accountID userID s groups = .ok (st, toSave, gids, evs)
          ∧ areGroupChangesAffectPeers st accountID gids
              = .ok (SaveGroups s accountID userID groups).propagated)
  ∧ ((DeleteGroups s accountID userID ids).state.networkSerial = s.networkSerial + 1
      ∧ (DeleteGroups s accountID userID ids).propagated = false)
  ∧ (pid ∉ g.Peers →
        (GroupAddPeer s accountID gid pid).err = none
      ∧ (GroupAddPeer s accountID gid pid).state.networkSerial = s.networkSerial + 1
      ∧ areGroupChangesAffectPeers s accountID [gid]
          = .ok (GroupAddPeer s accountID gid pid).propagated)
  ∧ (pid ∈ g.Peers →
        (GroupDeletePeer s accountID gid pid).err = none
      ∧ (GroupDeletePeer s accountID gid pid).state.networkSerial = s.networkSerial + 1
      ∧ areGroupChangesAffectPeers s accountID [gid]
          = .ok (GroupDeletePeer s accountID gid pid).propagated)
  ∧ (pid ∈ g.Peers → GroupAddPeer s accountID gid pid = ⟨s, none, [], false⟩) := by
  refine ⟨?_, ?_, ?_, ?_, ?_⟩
  · intro herr
    unfold SaveGroups at herr ⊢
    rw [hu] at herr ⊢
    simp only [huacc, beq_self_eq_true, Bool.not_true, Bool.false_eq_true, if_false,
      hreg] at herr ⊢
    cases htxn : saveGroupsTxn s accountID userID groups with
    | error e => simp [htxn] at herr
    | ok t =>
      obtain ⟨s3, evs, upd⟩ := t
      unfold saveGroupsTxn at htxn
      cases hloop : saveGroupsLoop accountID userID s groups with
      | error e => rw [hloop] at htxn; cases htxn
      | ok q =>
        rw [hloop] at htxn
        obtain ⟨st, toSave, gids, evs2⟩ := q
        cases himp : areGroupChangesAffectPeers st accountID gids with
        | error e => simp only [himp] at htxn; cases htxn
        | ok upd2 =>
          simp only [himp] at htxn
          have hst := saveGroupsLoop_state hloop
          have hstinc : st.incrementSerialFails = false := by rw [hst]; exact hinc
          cases hincr : incrementNetworkSerial st with
          | error e => simp only [hincr] at htxn; cases htxn
          | ok st2 =>
            simp only [hincr] at htxn
            cases hsgs : storeSaveGroups st2 toSave with
            | error e => simp only [hsgs] at htxn; cases htxn
            | ok stf =>
              simp only [hsgs] at htxn
              cases htxn
              have hst2ser : st2.networkSerial = st.networkSerial + 1 := by
                unfold incrementNetworkSerial at hincr
                rw [hstinc] at hincr
                simp at hincr
                rw [← hincr]
              have hsfser : s3.networkSerial = st2.networkSerial := by
                unfold storeSaveGroups at hsgs
                cases hw : st2.saveGroupsWriteFails with
                | true => rw [hw] at hsgs; simp at hsgs
                | false =>
                  rw [hw] at hsgs
                  simp at hsgs
                  rw [← hsgs]
              refine ⟨?_, st, toSave, gids, evs, rfl, himp⟩
              show s3.networkSerial = s.networkSerial + 1
              rw [hsfser, hst2ser]
              have hser : st.networkSerial = s.networkSerial := by rw [hst]
              rw [hser]
  · have hres : DeleteGroups s accountID userID ids
        = ⟨{ s with networkSerial := s.networkSerial + 1,
                    groups := s.groups.filter (fun h => !(h.AccountID == accountID
                      && (deleteGroupsLoop s accountID userID ids).2.1.contains h.ID)) },
           (match (deleteGroupsLoop s accountID userID ids).1 with
            | [] => none
            | e :: es => some (.joined (e :: es))),
           (deleteGroupsLoop s accountID userID ids).2.2.map
             (fun h => Event.groupDeleted userID h.ID accountID h.Name),
           false⟩ := by
      simp only [DeleteGroups, hu, huacc, hreg, deleteGroupsTxn, incrementNetworkSerial, hinc,
        storeDeleteGroups, hdel]
      simp
      cases (deleteGroupsLoop s accountID userID ids).1 with
      | nil => rfl
      | cons e es => rfl
    rw [hres]
    exact ⟨rfl, rfl⟩
  · intro hmem
    have hAdd : g.AddPeer pid = ({ g with Peers := g.Peers ++ [pid] }, true) := by
      simp [Group.AddPeer, hmem]
    have h1 : GroupAddPeer s accountID gid pid =
        ⟨{ s with networkSerial := s.networkSerial + 1,
                  groups := upsertGroup s.groups ({ g with Peers := g.Peers ++ [pid] }) },
         none, [], groupChangeAffectsPeers s accountID s.dnsSettings gid⟩ := by
      simp only [GroupAddPeer, groupAddPeerTxn, hg, hAdd, Bool.not_true, Bool.false_eq_true,
        if_false, impact_single accountID gid hdns, incrementNetworkSerial, hinc,
        storeSaveGroup, hsg]
    rw [h1]
    exact ⟨rfl, rfl, impact_single accountID gid hdns⟩
  · intro hmem
    have hRem : g.RemovePeer pid = ({ g with Peers := g.Peers.erase pid }, true) := by
      simp [Group.RemovePeer, hmem]
    have h1 : GroupDeletePeer s accountID gid pid =
        ⟨{ s with networkSerial := s.networkSerial + 1,
                  groups := upsertGroup s.groups ({ g with Peers := g.Peers.erase pid }) },
         none, [], groupChangeAffectsPeers s accountID s.dnsSettings gid⟩ := by
      simp only [GroupDeletePeer, groupDeletePeerTxn, hg, hRem, Bool.not_true, Bool.false_eq_true,
        if_false, impact_single accountID gid hdns, incrementNetworkSerial, hinc,
        storeSaveGroup, hsg]
    rw [h1]
    exact ⟨rfl, rfl, impact_single accountID gid hdns⟩
  · intro hmem
    simp [GroupAddPeer, groupAddPeerTxn, hg, Group.AddPeer, hmem]

/-- Witness for the amended C1: in the base fixture DeleteGroups bumps
the serial without propagating, GroupDeletePeer bumps it on an actual
removal, and the membership no-op leaves everything unchanged. -/
theorem c1_serial_bumped_unconditionally_witness :
    (DeleteGroups baseState "acc" "admin" ["gMisc"]).state.networkSerial
        = baseState.networkSerial + 1
  ∧ (DeleteGroups baseState "acc" "admin" ["gMisc"]).propagated = false
  ∧ (GroupDeletePeer baseState "acc" "gEng" "p1").state.networkSerial
        = baseState.networkSerial + 1
  ∧ GroupAddPeer baseState "acc" "gEng" "p1" = ⟨baseState, none, [], false⟩ := by
  have h := c1_serial_bumped_unconditionally baseState "acc" "admin" "gEng" "p1" [] ["gMisc"]
    adminUser gEng rfl rfl (by decide) rfl rfl rfl rfl rfl
  exact ⟨h.2.1.1, h.2.1.2, (h.2.2.2.1 (by decide)).2.1, h.2.2.2.2 (by decide)⟩


/-- Claim C2: whenever a group G appears as a source or destination of an
enabled rule of an enabled policy of the account, or in the account's
DNS-management-disabled list, or in a route's group or peer-group lists,
the impact predicate areGroupChangesAffectPeers returns true for any
group-identifier list containing G (given that the DNS-settings, policy
and route store reads succeed) — the predicate has no false negatives on
the spec's defining conditions. -/
theorem c2_impact_predicate_no_false_negatives
    (s : StoreState) (accountID G : String) (gids : List String)
    (hdns : s.dnsSettingsReadFails = false)
    (hpol : s.policiesReadFails = false)
    (hrt : s.routesReadFails = false)
    (hG : G ∈ gids)
    (hcond :
      (∃ p ∈ s.policies, p.AccountID = accountID ∧ p.Enabled = true ∧
        ∃ rl ∈ p.Rules, rl.Enabled = true ∧ (G ∈ rl.Sources ∨ G ∈ rl.Destinations))
      ∨ G ∈ s.dnsSettings.DisabledManagementGroups
      ∨ (∃ r ∈ s.routes, r.AccountID = accountID ∧ (G ∈ r.Groups ∨ G ∈ r.PeerGroups))) :
    areGroupChangesAffectPeers s accountID gids = .ok true := by
  have hne : gids.isEmpty = false := by
    cases gids with
    | nil => cases hG
    | cons x xs => rfl
  unfold areGroupChangesAffectPeers getAccountDNSSettings
  rw [hne, hdns]
  simp only [Bool.false_eq_true, if_false]
  have hone : groupChangeAffectsPeers s accountID s.dnsSettings G = true := by
    unfold groupChangeAffectsPeers
    rcases hcond with ⟨p, hp, haccp, _, rl, hrl, _, hmem⟩ | hmem | ⟨r, hr, haccr, hmem⟩
    · have hlp : (isGroupLinkedToPolicy s accountID G).1 = true :=
        (isGroupLinkedToPolicy_fst_iff hpol).mpr ⟨p, hp, haccp, rl, hrl, hmem⟩
      simp [hlp]
    · simp only [Bool.or_eq_true, contains_eq_true_iff]
      exact Or.inl (Or.inl (Or.inl hmem))
    · have hlr : (isGroupLinkedToRoute s accountID G).1 = true :=
        (isGroupLinkedToRoute_fst_iff hrt).mpr ⟨r, hr, haccr, hmem⟩
      simp [hlr]
  simp only [Except.ok.injEq]
  exact List.any_eq_true.mpr ⟨G, hG, hone⟩

/-- Witness for C2: in the base fixture, `gEng` is referenced by the
enabled policy rule, so the impact predicate holds on `["gEng"]`. -/
theorem c2_impact_predicate_no_false_negatives_witness :
    areGroupChangesAffectPeers baseState "acc" ["gEng"] = .ok true :=
  c2_impact_predicate_no_false_negatives baseState "acc" "gEng" ["gEng"]
    rfl rfl rfl (by decide)
    (Or.inl ⟨engPolicy, by decide, rfl, rfl,
      ⟨{ Enabled := true, Sources := ["gEng"], Destinations := ["gEng"] }, by decide, rfl,
        Or.inl (by decide)⟩⟩)

/-- Claim C4: GroupAddPeer with an already-present peer and
GroupDeletePeer with an absent peer are complete no-ops (state, events
and propagation unchanged, no error); and GroupAddPeer twice with the
same group and peer performs exactly one membership change (the peer
appended once) and exactly one serial bump — or zero of each when the
peer was already present before either call. -/
theorem c4_group_peer_idempotence (s : StoreState) (accountID gid pid : String) (g : Group)
    (hg : getGroupByID s accountID gid = .ok g)
    (hdns : s.dnsSettingsReadFails = false)
    (hinc : s.incrementSerialFails = false)
    (hsg : s.saveGroupWriteFails = false) :
    (pid ∈ g.Peers → GroupAddPeer s accountID gid pid = ⟨s, none, [], false⟩)
  ∧ (pid ∉ g.Peers → GroupDeletePeer s accountID gid pid = ⟨s, none, [], false⟩)
  ∧ ((GroupAddPeer s accountID gid pid).err = none
     ∧ GroupAddPeer (GroupAddPeer s accountID gid pid).state accountID gid pid
         = ⟨(GroupAddPeer s accountID gid pid).state, none, [], false⟩
     ∧ (GroupAddPeer s accountID gid pid).state.networkSerial
         = s.networkSerial + (if pid ∈ g.Peers then 0 else 1)
     ∧ ∃ g', getGroupByID (GroupAddPeer s accountID gid pid).state accountID gid = .ok g'
         ∧ pid ∈ g'.Peers
         ∧ g'.Peers = (if pid ∈ g.Peers then g.Peers else g.Peers ++ [pid])) := by
  have hnoop : pid ∈ g.Peers → GroupAddPeer s accountID gid pid = ⟨s, none, [], false⟩ := by
    intro hmem
    simp [GroupAddPeer, groupAddPeerTxn, hg, Group.AddPeer, hmem]
  refine ⟨hnoop, ?_, ?_⟩
  · intro hmem
    simp [GroupDeletePeer, groupDeletePeerTxn, hg, Group.RemovePeer, hmem]
  · by_cases hmem : pid ∈ g.Peers
    · rw [hnoop hmem]
      refine ⟨rfl, hnoop hmem, by simp [hmem], g, hg, hmem, by simp [hmem]⟩
    · have hAdd : g.AddPeer pid = ({ g with Peers := g.Peers ++ [pid] }, true) := by
        simp [Group.AddPeer, hmem]
      have h1 : GroupAddPeer s accountID gid pid =
          ⟨{ s with networkSerial := s.networkSerial + 1,
                    groups := upsertGroup s.groups ({ g with Peers := g.Peers ++ [pid] }) },
           none, [], groupChangeAffectsPeers s accountID s.dnsSettings gid⟩ := by
        simp only [GroupAddPeer, groupAddPeerTxn, hg, hAdd, Bool.not_true, Bool.false_eq_true,
          if_false, impact_single accountID gid hdns, incrementNetworkSerial, hinc,
          storeSaveGroup, hsg]
      rw [h1]
      have hg2 : getGroupByID
          ({ s with networkSerial := s.networkSerial + 1,
                    groups := upsertGroup s.groups ({ g with Peers := g.Peers ++ [pid] }) })
          accountID gid = .ok ({ g with Peers := g.Peers ++ [pid] }) := by
        unfold getGroupByID at hg ⊢
        cases hf : s.groups.find? (fun h => h.AccountID == accountID && h.ID == gid) with
        | none => rw [hf] at hg; cases hg
        | some g0 =>
          rw [hf] at hg
          have hg0 : g0 = g := by cases hg; rfl
          subst hg0
          have hres := upsertGroup_find? s.groups accountID gid g0
            ({ g0 with Peers := g0.Peers ++ [pid] }) hf rfl rfl
          simp only [hres]
      refine ⟨rfl, ?_, by simp [hmem], { g with Peers := g.Peers ++ [pid] }, hg2,
        by simp, by simp [hmem]⟩
      have hmem2 : pid ∈ ({ g with Peers := g.Peers ++ [pid] } : Group).Peers := by simp
      simp [GroupAddPeer, groupAddPeerTxn, hg2, Group.AddPeer, hmem2]

/-- Witness for C4: in the base fixture, adding the present peer `p1` to
`gEng` is a no-op, while adding `p2` twice bumps the serial exactly once
and the second call is a no-op on the once-mutated state. -/
theorem c4_group_peer_idempotence_witness :
    GroupAddPeer baseState "acc" "gEng" "p1" = ⟨baseState, none, [], false⟩
  ∧ (GroupAddPeer baseState "acc" "gEng" "p2").state.networkSerial
      = baseState.networkSerial + 1
  ∧ GroupAddPeer (GroupAddPeer baseState "acc" "gEng" "p2").state "acc" "gEng" "p2"
      = ⟨(GroupAddPeer baseState "acc" "gEng" "p2").state, none, [], false⟩ := by
  have h1 := c4_group_peer_idempotence baseState "acc" "gEng" "p1" gEng rfl rfl rfl rfl
  have h2 := c4_group_peer_idempotence baseState "acc" "gEng" "p2" gEng rfl rfl rfl rfl
  have hserial := h2.2.2.2.2.1
  rw [if_neg (by decide)] at hserial
  exact ⟨h1.1 (by decide), hserial, h2.2.2.2.1⟩

/-- Claim C3: committed DeleteGroups with a mix of failing and passing
identifiers deletes exactly the account groups whose identifier is
listed and passes validation, leaves every failing group present, and
returns the join of all per-identifier errors — nil exactly when every
identifier passed. -/
theorem c3_delete_groups_partial_success (s : StoreState) (accountID userID : String)
    (ids : List String) (u : User)
    (hu : getUserByUserID s userID = .ok u)
    (huacc : u.AccountID = accountID)
    (hreg : u.IsRegularUser = false)
    (hinc : s.incrementSerialFails = false)
    (hdel : s.deleteGroupsWriteFails = false) :
    (DeleteGroups s accountID userID ids).state.groups
      = s.groups.filter (fun g => !(g.AccountID == accountID
          && (ids.filter (fun id => (idErr s accountID userID id).isNone)).contains g.ID))
  ∧ (∀ g ∈ s.groups, (idErr s accountID userID g.ID).isSome = true →
        g ∈ (DeleteGroups s accountID userID ids).state.groups)
  ∧ ((DeleteGroups s accountID userID ids).err
      = match ids.filterMap (idErr s accountID userID) with
        | [] => none
        | e :: es => some (.joined (e :: es)))
  ∧ ((DeleteGroups s accountID userID ids).err = none ↔
        ∀ id ∈ ids, idErr s accountID userID id = none) := by
  have hres : DeleteGroups s accountID userID ids
      = ⟨{ s with networkSerial := s.networkSerial + 1,
                  groups := s.groups.filter (fun g => !(g.AccountID == accountID
                    && (ids.filter (fun id => (idErr s accountID userID id).isNone)).contains g.ID)) },
         (match ids.filterMap (idErr s accountID userID) with
          | [] => none
          | e :: es => some (.joined (e :: es))),
         (ids.filterMap (idGroup s accountID userID)).map
           (fun g => Event.groupDeleted userID g.ID accountID g.Name),
         false⟩ := by
    simp only [DeleteGroups, hu, huacc, hreg, deleteGroupsTxn,
      deleteGroupsLoop_eq s accountID userID ids, incrementNetworkSerial, hinc,
      storeDeleteGroups, hdel]
    simp
    cases ids.filterMap (idErr s accountID userID) with
    | nil => rfl
    | cons e es => rfl
  rw [hres]
  refine ⟨rfl, ?_, rfl, ?_⟩
  · intro g hgmem hsome
    refine List.mem_filter.mpr ⟨hgmem, ?_⟩
    simp
    exact Or.inr (Or.inr (fun hnone => by rw [hnone] at hsome; cases hsome))
  · constructor
    · intro hnone id hid
      cases hfm : ids.filterMap (idErr s accountID userID) with
      | nil =>
        have := List.filterMap_eq_nil_iff.mp hfm
        exact this id hid
      | cons e es => rw [hfm] at hnone; cases hnone
    · intro hall
      have : ids.filterMap (idErr s accountID userID) = [] :=
        List.filterMap_eq_nil_iff.mpr hall
      rw [this]

/-- Witness for C3: deleting `["gMisc", "gEng"]` in the base fixture —
`gMisc` passes, the policy-linked `gEng` fails — commits the filtered
group list and reports a non-nil joined error. -/
theorem c3_delete_groups_partial_success_witness :
    (DeleteGroups baseState "acc" "admin" ["gMisc", "gEng"]).state.groups
      = baseState.groups.filter (fun g => !(g.AccountID == "acc"
          && ((["gMisc", "gEng"]).filter
                (fun id => (idErr baseState "acc" "admin" id).isNone)).contains g.ID))
  ∧ ((DeleteGroups baseState "acc" "admin" ["gMisc", "gEng"]).err = none ↔
        ∀ id ∈ ["gMisc", "gEng"], idErr baseState "acc" "admin" id = none) := by
  have h := c3_delete_groups_partial_success baseState "acc" "admin" ["gMisc", "gEng"]
    adminUser rfl rfl (by decide) rfl rfl
  exact ⟨h.1, h.2.2.2⟩

/-- Counterexample to claim C5 as stated: the ALL group referenced by a
policy rule is blocked with an InvalidArgument error, not a GroupLinked
one — the universally quantified claim fails on the ALL group. -/
theorem c5_counterexample :
    (∃ p ∈ allLinkedState.policies, ∃ rl ∈ p.Rules, "gAll" ∈ rl.Sources)
  ∧ (DeleteGroups allLinkedState "acc" "admin" ["gAll"]).err
      = some (.joined [.invalidArgument "deleting group ALL is not allowed"])
  ∧ errHasGroupLinked (DeleteGroups allLinkedState "acc" "admin" ["gAll"]).err = false
  ∧ gAll ∈ (DeleteGroups allLinkedState "acc" "admin" ["gAll"]).state.groups := by
  refine ⟨⟨allPolicy, by decide,
    { Enabled := true, Sources := ["gAll"], Destinations := ["gAll"] }, by decide, by decide⟩,
    rfl, rfl, by decide⟩

/-- Claim C5 (amended): for every group G referenced by a policy rule, a
route, a DNS name-server group, a setup key, a user auto-group list, the
DNS-management-disabled list, or the integrated-validator list,
DeleteGroups([G]) returns a GroupLinked error carrying the referencing
resource kind and name and G remains present — provided G is not the
distinguished ALL group, the requester passes the permission and
integration gates, and the store reads and writes succeed. -/
theorem c5_linked_group_delete_blocked (s : StoreState) (accountID userID : String) (g : Group) (u : User)
    (hu : getUserByUserID s userID = .ok u)
    (huacc : u.AccountID = accountID)
    (hreg : u.IsRegularUser = false)
    (hg : getGroupByID s accountID g.ID = .ok g)
    (hacc : g.AccountID = accountID)
    (hall : g.IsGroupAll = false)
    (hint : g.Issued = GroupIssued.integration → u.Role = UserRole.admin ∧ u.IsServiceUser = true)
    (hfr : s.routesReadFails = false)
    (hfp : s.policiesReadFails = false)
    (hfd : s.nameServerGroupsReadFails = false)
    (hfk : s.setupKeysReadFails = false)
    (hfu : s.usersReadFails = false)
    (hfds : s.dnsSettingsReadFails = false)
    (hfs : s.settingsReadFails = false)
    (hinc : s.incrementSerialFails = false)
    (hdel : s.deleteGroupsWriteFails = false)
    (hlink :
      (∃ p ∈ s.policies, p.AccountID = accountID ∧
         ∃ rl ∈ p.Rules, g.ID ∈ rl.Sources ∨ g.ID ∈ rl.Destinations)
      ∨ (∃ r ∈ s.routes, r.AccountID = accountID ∧ (g.ID ∈ r.Groups ∨ g.ID ∈ r.PeerGroups))
      ∨ (∃ n ∈ s.nameServerGroups, n.AccountID = accountID ∧ g.ID ∈ n.Groups)
      ∨ (∃ k ∈ s.setupKeys, k.AccountID = accountID ∧ g.ID ∈ k.AutoGroups)
      ∨ (∃ us ∈ s.users, us.AccountID = accountID ∧ g.ID ∈ us.AutoGroups)
      ∨ g.ID ∈ s.dnsSettings.DisabledManagementGroups
      ∨ (∃ ex, s.settings.Extra = some ex ∧ g.ID ∈ ex.IntegratedValidatorGroups)) :
    (∃ resource name, (DeleteGroups s accountID userID [g.ID]).err
        = some (.joined [.groupLinked resource name]))
  ∧ g ∈ (DeleteGroups s accountID userID [g.ID]).state.groups := by
  subst hacc
  have hdisj :
      (isGroupLinkedToRoute s g.AccountID g.ID).1 = true
    ∨ (isGroupLinkedToDns s g.AccountID g.ID).1 = true
    ∨ (isGroupLinkedToPolicy s g.AccountID g.ID).1 = true
    ∨ (isGroupLinkedToSetupKey s g.AccountID g.ID).1 = true
    ∨ (isGroupLinkedToUser s g.AccountID g.ID).1 = true
    ∨ s.dnsSettings.DisabledManagementGroups.contains g.ID = true
    ∨ (∃ ex, s.settings.Extra = some ex ∧ ex.IntegratedValidatorGroups.contains g.ID = true) := by
    rcases hlink with hl | hl | hl | hl | hl | hl | ⟨ex, hex, hl⟩
    · exact Or.inr (Or.inr (Or.inl ((isGroupLinkedToPolicy_fst_iff hfp).mpr hl)))
    · exact Or.inl ((isGroupLinkedToRoute_fst_iff hfr).mpr hl)
    · exact Or.inr (Or.inl ((isGroupLinkedToDns_fst_iff hfd).mpr hl))
    · exact Or.inr (Or.inr (Or.inr (Or.inl ((isGroupLinkedToSetupKey_fst_iff hfk).mpr hl))))
    · exact Or.inr (Or.inr (Or.inr (Or.inr (Or.inl ((isGroupLinkedToUser_fst_iff hfu).mpr hl)))))
    · exact Or.inr (Or.inr (Or.inr (Or.inr (Or.inr (Or.inl (contains_eq_true_iff.mpr hl))))))
    · exact Or.inr (Or.inr (Or.inr (Or.inr (Or.inr (Or.inr
        ⟨ex, hex, contains_eq_true_iff.mpr hl⟩)))))
  have hval : ∃ resource name,
      validateDeleteGroup s g userID = .error (.groupLinked resource name) := by
    unfold validateDeleteGroup
    simp only [integrationDeleteGate_none hu hint, hall, Bool.false_eq_true, if_false]
    by_cases h1 : (isGroupLinkedToRoute s g.AccountID g.ID).1 = true
    · simp only [h1, if_true]
      exact ⟨_, _, rfl⟩
    · simp only [Bool.not_eq_true _ |>.mp h1, Bool.false_eq_true, if_false]
      by_cases h2 : (isGroupLinkedToDns s g.AccountID g.ID).1 = true
      · simp only [h2, if_true]
        exact ⟨_, _, rfl⟩
      · simp only [Bool.not_eq_true _ |>.mp h2, Bool.false_eq_true, if_false]
        by_cases h3 : (isGroupLinkedToPolicy s g.AccountID g.ID).1 = true
        · simp only [h3, if_true]
          exact ⟨_, _, rfl⟩
        · simp only [Bool.not_eq_true _ |>.mp h3, Bool.false_eq_true, if_false]
          by_cases h4 : (isGroupLinkedToSetupKey s g.AccountID g.ID).1 = true
          · simp only [h4, if_true]
            exact ⟨_, _, rfl⟩
          · simp only [Bool.not_eq_true _ |>.mp h4, Bool.false_eq_true, if_false]
            by_cases h5 : (isGroupLinkedToUser s g.AccountID g.ID).1 = true
            · simp only [h5, if_true]
              exact ⟨_, _, rfl⟩
            · simp only [Bool.not_eq_true _ |>.mp h5, Bool.false_eq_true, if_false]
              unfold checkGroupLinkedToSettings
              simp only [getAccountDNSSettings, hfds, Bool.false_eq_true, if_false,
                getAccountSettings, hfs]
              by_cases h6 : s.dnsSettings.DisabledManagementGroups.contains g.ID = true
              · simp only [h6, if_true]
                exact ⟨_, _, rfl⟩
              · simp only [Bool.not_eq_true _ |>.mp h6, Bool.false_eq_true, if_false]
                cases hex : s.settings.Extra with
                | none =>
                  exfalso
                  rcases hdisj with hA | hA | hA | hA | hA | hA | ⟨ex, hex', hA⟩
                  · exact h1 hA
                  · exact h2 hA
                  · exact h3 hA
                  · exact h4 hA
                  · exact h5 hA
                  · exact h6 hA
                  · rw [hex] at hex'
                    cases hex'
                | some extra =>
                  simp only [hex]
                  by_cases h7 : extra.IntegratedValidatorGroups.contains g.ID = true
                  · simp only [h7, if_true]
                    exact ⟨_, _, rfl⟩
                  · exfalso
                    rcases hdisj with hA | hA | hA | hA | hA | hA | ⟨ex, hex', hA⟩
                    · exact h1 hA
                    · exact h2 hA
                    · exact h3 hA
                    · exact h4 hA
                    · exact h5 hA
                    · exact h6 hA
                    · rw [hex] at hex'
                      cases hex'
                      exact h7 hA
  obtain ⟨r0, n0, hval⟩ := hval
  have hloop : deleteGroupsLoop s g.AccountID userID [g.ID]
      = ([.groupLinked r0 n0], [], []) := by
    simp [deleteGroupsLoop, hg, hval]
  have hres : DeleteGroups s g.AccountID userID [g.ID]
      = ⟨{ s with networkSerial := s.networkSerial + 1,
                  groups := s.groups.filter
                    (fun h => !(h.AccountID == g.AccountID && ([] : List String).contains h.ID)) },
         some (.joined [.groupLinked r0 n0]), [], false⟩ := by
    simp only [DeleteGroups, hu, huacc, hreg, deleteGroupsTxn, hloop, incrementNetworkSerial,
      hinc, storeDeleteGroups, hdel]
    simp
  rw [hres]
  exact ⟨⟨r0, n0, rfl⟩, List.mem_filter.mpr ⟨getGroupByID_mem hg, by simp⟩⟩

/-- Witness for the amended C5: deleting the policy-linked group `gEng`
of the base fixture is rejected with a GroupLinked error and the group
remains. -/
theorem c5_linked_group_delete_blocked_witness :
    (∃ resource name, (DeleteGroups baseState "acc" "admin" [gEng.ID]).err
        = some (.joined [.groupLinked resource name]))
  ∧ gEng ∈ (DeleteGroups baseState "acc" "admin" [gEng.ID]).state.groups := by
  exact c5_linked_group_delete_blocked baseState "acc" "admin" gEng adminUser
    rfl rfl (by decide) rfl rfl (by decide) (fun hiss => absurd hiss (by decide))
    rfl rfl rfl rfl rfl rfl rfl rfl rfl
    (Or.inl ⟨engPolicy, by decide, rfl,
      ⟨{ Enabled := true, Sources := ["gEng"], Destinations := ["gEng"] }, by decide,
        Or.inl (by decide)⟩⟩)

/-- Counterexample to claim C6 as stated: deleting the ALL group fails
with an InvalidArgument error ("deleting group ALL is not allowed"), not
with a GroupLinked error; the ALL group does remain present. -/
theorem c6_counterexample :
    (DeleteGroups baseState "acc" "admin" ["gAll"]).err
      = some (.joined [.invalidArgument "deleting group ALL is not allowed"])
  ∧ errHasGroupLinked (DeleteGroups baseState "acc" "admin" ["gAll"]).err = false
  ∧ gAll ∈ (DeleteGroups baseState "acc" "admin" ["gAll"]).state.groups := by
  refine ⟨rfl, rfl, by decide⟩

/-- Claim C6 (amended): DeleteGroups applied to the distinguished ALL
group always fails — with an InvalidArgument error rather than a
GroupLinked one (assuming the requester and integration gates pass and
the transaction's writes succeed) — and the ALL group remains present;
no deletion event is stored. -/
theorem c6_all_group_delete_blocked (s : StoreState) (accountID userID gid : String)
    (g : Group) (u : User)
    (hu : getUserByUserID s userID = .ok u)
    (huacc : u.AccountID = accountID)
    (hreg : u.IsRegularUser = false)
    (hg : getGroupByID s accountID gid = .ok g)
    (hall : g.IsGroupAll = true)
    (hint : g.Issued = GroupIssued.integration → u.Role = UserRole.admin ∧ u.IsServiceUser = true)
    (hinc : s.incrementSerialFails = false)
    (hdel : s.deleteGroupsWriteFails = false) :
    (DeleteGroups s accountID userID [gid]).err
      = some (.joined [.invalidArgument "deleting group ALL is not allowed"])
  ∧ g ∈ (DeleteGroups s accountID userID [gid]).state.groups
  ∧ (DeleteGroups s accountID userID [gid]).events = [] := by
  have hgate := integrationDeleteGate_none hu hint
  have hval : validateDeleteGroup s g userID
      = .error (.invalidArgument "deleting group ALL is not allowed") := by
    unfold validateDeleteGroup
    rw [hgate, if_pos hall]
  have hloop : deleteGroupsLoop s accountID userID [gid]
      = ([.invalidArgument "deleting group ALL is not allowed"], [], []) := by
    simp [deleteGroupsLoop, hg, hval]
  have hmem : g ∈ s.groups := getGroupByID_mem hg
  have hres : DeleteGroups s accountID userID [gid]
      = ⟨{ s with networkSerial := s.networkSerial + 1,
                  groups := s.groups.filter
                    (fun h => !(h.AccountID == accountID && ([] : List String).contains h.ID)) },
         some (.joined [.invalidArgument "deleting group ALL is not allowed"]), [], false⟩ := by
    simp only [DeleteGroups, hu, huacc, hreg, deleteGroupsTxn, hloop, incrementNetworkSerial,
      hinc, storeDeleteGroups, hdel]
    simp
  rw [hres]
  refine ⟨rfl, ?_, rfl⟩
  exact List.mem_filter.mpr ⟨hmem, by simp⟩

/-- Witness for the amended C6: deleting the ALL group of the base
fixture fails with the InvalidArgument error and the group remains. -/
theorem c6_all_group_delete_blocked_witness :
    (DeleteGroups baseState "acc" "admin" ["gAll"]).err
      = some (.joined [.invalidArgument "deleting group ALL is not allowed"])
  ∧ gAll ∈ (DeleteGroups baseState "acc" "admin" ["gAll"]).state.groups := by
  have h := c6_all_group_delete_blocked baseState "acc" "admin" "gAll" gAll adminUser
    rfl rfl (by decide) rfl rfl (fun h => absurd h (by decide)) rfl rfl
  exact ⟨h.1, h.2.1⟩

/-- Counterexample to claim C7 as stated: in a state whose only user is
a regular user, GroupAddPeer — which takes no requester and performs no
permission check — succeeds and mutates state instead of returning
PermissionDenied. -/
theorem c7_counterexample :
    regState.users = [regularUser]
  ∧ regularUser.IsRegularUser = true
  ∧ (GroupAddPeer regState "acc" "gEng" "p2").err = none
  ∧ (GroupAddPeer regState "acc" "gEng" "p2").state ≠ regState := by
  refine ⟨rfl, rfl, rfl, by decide⟩

/-- Claim C7 (amended): SaveGroups and DeleteGroups — the mutating
operations that take a requester — return PermissionDenied for a regular
user of the account, and UserNotPartOfAccount when the requester's
resolved account differs from the target, each before the transaction
opens and with no state change, no events and no propagation
(GroupAddPeer and GroupDeletePeer take no requester and perform no such
check, as the counterexample shows). -/
theorem c7_permission_gating (s : StoreState) (accountID userID : String)
    (groups : List Group) (ids : List String) (u : User)
    (hu : getUserByUserID s userID = .ok u) :
    (u.AccountID = accountID → u.IsRegularUser = true →
        SaveGroups s accountID userID groups
          = ⟨s, some (.leaf (.permissionDenied "admin permission required")), [], false⟩
      ∧ DeleteGroups s accountID userID ids
          = ⟨s, some (.leaf (.permissionDenied "admin permission required")), [], false⟩)
  ∧ (u.AccountID ≠ accountID →
        SaveGroups s accountID userID groups = ⟨s, some (.leaf .userNotPartOfAccount), [], false⟩
      ∧ DeleteGroups s accountID userID ids = ⟨s, some (.leaf .userNotPartOfAccount), [], false⟩) := by
  constructor
  · intro hacc hreg
    constructor
    · simp [SaveGroups, hu, hacc, hreg]
    · simp [DeleteGroups, hu, hacc, hreg]
  · intro hne
    have hb : (u.AccountID == accountID) = false := by
      simp [hne]
    constructor
    · simp [SaveGroups, hu, hb]
    · simp [DeleteGroups, hu, hb]

/-- Witness for the amended C7: the regular user is denied SaveGroups on
its own account, and the admin is rejected on a foreign account. -/
theorem c7_permission_gating_witness :
    SaveGroups regState "acc" "reggie" []
      = ⟨regState, some (.leaf (.permissionDenied "admin permission required")), [], false⟩
  ∧ DeleteGroups baseState "other" "admin" ["gMisc"]
      = ⟨baseState, some (.leaf .userNotPartOfAccount), [], false⟩ := by
  have h1 := c7_permission_gating regState "acc" "reggie" [] [] regularUser rfl
  have h2 := c7_permission_gating baseState "other" "admin" [] ["gMisc"] adminUser rfl
  exact ⟨(h1.1 rfl rfl).1, (h2.2 (by decide)).2⟩

/-- Claim C8: when the transaction body of SaveGroups, DeleteGroups,
GroupAddPeer or GroupDeletePeer fails (for Save/Delete, with the
requester having passed the permission gate), the operation returns that
error and performs no side effects: the state is unchanged, no audit
events are stored, and no peer-map propagation is triggered. -/
theorem c8_txn_failure_no_side_effects
    (s : StoreState) (accountID userID gid pid : String)
    (groups : List Group) (ids : List String) (u : User)
    (hu : getUserByUserID s userID = .ok u)
    (hacc : u.AccountID = accountID)
    (hreg : u.IsRegularUser = false) :
    (∀ e, saveGroupsTxn s accountID userID groups = .error e →
        SaveGroups s accountID userID groups = ⟨s, some (.leaf e), [], false⟩)
  ∧ (∀ e, deleteGroupsTxn s accountID userID ids = .error e →
        DeleteGroups s accountID userID ids = ⟨s, some (.leaf e), [], false⟩)
  ∧ (∀ e, groupAddPeerTxn s accountID gid pid = .error e →
        GroupAddPeer s accountID gid pid = ⟨s, some (.leaf e), [], false⟩)
  ∧ (∀ e, groupDeletePeerTxn s accountID gid pid = .error e →
        GroupDeletePeer s accountID gid pid = ⟨s, some (.leaf e), [], false⟩) := by
  refine ⟨?_, ?_, ?_, ?_⟩
  · intro e htxn
    simp [SaveGroups, hu, hacc, hreg, htxn]
  · intro e htxn
    simp [DeleteGroups, hu, hacc, hreg, htxn]
  · intro e htxn
    simp [GroupAddPeer, htxn]
  · intro e htxn
    simp [GroupDeletePeer, htxn]

/-- Witness for C8: with the serial increment failing, all four
operations surface the store failure and leave everything untouched. -/
theorem c8_txn_failure_no_side_effects_witness :
    SaveGroups incFailState "acc" "admin" [] =
      ⟨incFailState, some (.leaf (.storeFailure "increment network serial failed")), [], false⟩
  ∧ DeleteGroups incFailState "acc" "admin" ["gMisc"] =
      ⟨incFailState, some (.leaf (.storeFailure "increment network serial failed")), [], false⟩
  ∧ GroupAddPeer incFailState "acc" "gEng" "p2" =
      ⟨incFailState, some (.leaf (.storeFailure "increment network serial failed")), [], false⟩
  ∧ GroupDeletePeer incFailState "acc" "gEng" "p1" =
      ⟨incFailState, some (.leaf (.storeFailure "increment network serial failed")), [], false⟩ := by
  have h := c8_txn_failure_no_side_effects incFailState "acc" "admin" "gEng" "p2" [] ["gMisc"]
    adminUser rfl rfl (by decide)
  have h' := c8_txn_failure_no_side_effects incFailState "acc" "admin" "gEng" "p1" [] ["gMisc"]
    adminUser rfl rfl (by decide)
  exact ⟨h.1 _ rfl, h.2.1 _ rfl, h.2.2.1 _ rfl, h'.2.2.2 _ rfl⟩

/-- Claim C9: a group accepted by validateDeleteGroup is unlinked from
every source of the impact predicate, so areGroupChangesAffectPeers over
its single identifier returns false — DeleteGroups omitting propagation
can never skip an impactful change. -/
theorem c9_deletable_group_has_no_impact (s : StoreState) (g : Group) (userID : String)
    (h : validateDeleteGroup s g userID = .ok ()) :
    areGroupChangesAffectPeers s g.AccountID [g.ID] = .ok false := by
  obtain ⟨h1, h2, h3, _, _, h6, h7⟩ := validateDeleteGroup_ok_extract h
  unfold areGroupChangesAffectPeers getAccountDNSSettings
  rw [h6]
  simp [groupChangeAffectsPeers, h1, h2, h3, List.contains, h7]

/-- Witness for C9: in the base fixture the unlinked group `gMisc`
passes validation, and the impact predicate on it is false. -/
theorem c9_deletable_group_has_no_impact_witness :
    areGroupChangesAffectPeers baseState gMisc.AccountID [gMisc.ID] = .ok false :=
  c9_deletable_group_has_no_impact baseState gMisc "admin" rfl

/-- Claim C10: when the store read of routes, policies, name-server
groups, setup keys or users fails, the corresponding isGroupLinkedTo*
helper returns (false, nil) — the group is treated as unlinked rather
than surfacing the store error — and the impact predicate likewise
proceeds as if no such linkage exists. -/
theorem c10_store_read_failure_treated_unlinked (s : StoreState) (a gid : String) :
    (s.routesReadFails = true → isGroupLinkedToRoute s a gid = (false, none))
  ∧ (s.policiesReadFails = true → isGroupLinkedToPolicy s a gid = (false, none))
  ∧ (s.nameServerGroupsReadFails = true → isGroupLinkedToDns s a gid = (false, none))
  ∧ (s.setupKeysReadFails = true → isGroupLinkedToSetupKey s a gid = (false, none))
  ∧ (s.usersReadFails = true → isGroupLinkedToUser s a gid = (false, none))
  ∧ (s.dnsSettingsReadFails = false → s.policiesReadFails = true → s.routesReadFails = true →
      s.nameServerGroupsReadFails = true → gid ∉ s.dnsSettings.DisabledManagementGroups →
      areGroupChangesAffectPeers s a [gid] = .ok false) := by
  refine ⟨?_, ?_, ?_, ?_, ?_, ?_⟩
  · intro h
    simp [isGroupLinkedToRoute, getAccountRoutes, h]
  · intro h
    simp [isGroupLinkedToPolicy, getAccountPolicies, h]
  · intro h
    simp [isGroupLinkedToDns, getAccountNameServerGroups, h]
  · intro h
    simp [isGroupLinkedToSetupKey, getAccountSetupKeys, h]
  · intro h
    simp [isGroupLinkedToUser, getAccountUsers, h]
  · intro hdns hp hr hn hmem
    simp [areGroupChangesAffectPeers, groupChangeAffectsPeers, getAccountDNSSettings, hdns,
          isGroupLinkedToPolicy, getAccountPolicies, hp,
          isGroupLinkedToRoute, getAccountRoutes, hr,
          isGroupLinkedToDns, getAccountNameServerGroups, hn,
          List.contains, hmem]

/-- Witness for C10: with every entity-list read failing, the policy-linked
group `gEng` is reported unlinked everywhere and has no impact. -/
theorem c10_store_read_failure_treated_unlinked_witness :
    isGroupLinkedToRoute readFailState "acc" "gEng" = (false, none)
  ∧ isGroupLinkedToPolicy readFailState "acc" "gEng" = (false, none)
  ∧ isGroupLinkedToDns readFailState "acc" "gEng" = (false, none)
  ∧ isGroupLinkedToSetupKey readFailState "acc" "gEng" = (false, none)
  ∧ isGroupLinkedToUser readFailState "acc" "gEng" = (false, none)
  ∧ areGroupChangesAffectPeers readFailState "acc" ["gEng"] = .ok false := by
  have h := c10_store_read_failure_treated_unlinked readFailState "acc" "gEng"
  exact ⟨h.1 rfl, h.2.1 rfl, h.2.2.1 rfl, h.2.2.2.1 rfl, h.2.2.2.2.1 rfl,
    h.2.2.2.2.2 rfl rfl rfl rfl (by decide)⟩

end NB
